import Mathlib

/-!
Verification development for the vineapple Vine API client.

The definitions below are a shallow embedding of the library's request
pipeline and session state, translated from the later snapshot of the
source (the file containing `VINE_ID_SEARCH`, callbacks and the
device-token scheme). Strings are modelled as `List Char`; JavaScript
values appearing in parsed JSON bodies are modelled by `JVal`.
-/

/-- JavaScript values produced by JSON.parse: null, booleans, numbers
(kept as their literal token text, since the library's whole point is that
converting to a float loses precision), strings, arrays and objects. -/
inductive JVal : Type where
  | null : JVal
  | bool : Bool → JVal
  | num : List Char → JVal
  | str : List Char → JVal
  | arr : List JVal → JVal
  | obj : List (List Char × JVal) → JVal
deriving Repr

/-- Test whether a JSON number token denotes zero: strip the sign, drop the
exponent part, and check every remaining mantissa digit is 0. -/
def jnumIsZero (tok : List Char) : Bool :=
  (((match tok with
      | '-' :: r => r
      | r => r).takeWhile (fun c => !(c == 'e') && !(c == 'E'))).filter
        (fun c => !(c == '.'))).all (fun c => c == '0')

/-- JavaScript truthiness of a JSON value. -/
def truthy : JVal → Bool
  | JVal.null => false
  | JVal.bool b => b
  | JVal.num t => !(jnumIsZero t)
  | JVal.str s => !(s.isEmpty)
  | JVal.arr _ => true
  | JVal.obj _ => true

/-- Property access `v[k]` on a parsed JSON value: on objects the last
binding for the key wins (JSON.parse keeps the last duplicate); on every
other value the access yields undefined (`none`). -/
def getField : JVal → List Char → Option JVal
  | JVal.obj fs, k => fs.foldl (fun acc kv => if kv.1 = k then some kv.2 else acc) none
  | _, _ => none

/-!
The identifier-repair rewrite.  Source:

  var VINE_ID_SEARCH =
    /("(?:(?:(?:comment|like|post|tag|user|venue)I)|i)d":\s*)(\d*)(,)?/g;
  var VINE_ID_REPLACE = '$1"$2"$3';
  ...
  body = body.replace(VINE_ID_SEARCH, VINE_ID_REPLACE);
-/

/-- Character class of the JavaScript regular-expression whitespace token
(the class written backslash-s), by code point. -/
def isWsChar (c : Char) : Bool :=
  c.toNat == 0x20 || c.toNat == 0x09 || c.toNat == 0x0a || c.toNat == 0x0d ||
  c.toNat == 0x0b || c.toNat == 0x0c || c.toNat == 0xa0 || c.toNat == 0x1680 ||
  (0x2000 ≤ c.toNat && c.toNat ≤ 0x200a) ||
  c.toNat == 0x2028 || c.toNat == 0x2029 || c.toNat == 0x202f ||
  c.toNat == 0x205f || c.toNat == 0x3000 || c.toNat == 0xfeff

/-- Character class of the JavaScript regular-expression digit token
(the class written backslash-d): the code points of 0 through 9. -/
def isDigitCh (c : Char) : Bool :=
  0x30 ≤ c.toNat && c.toNat ≤ 0x39

/-- Drop a literal list of characters from the front of a string,
returning the remainder on success. -/
def dropLit : List Char → List Char → Option (List Char)
  | [], s => some s
  | _ :: _, [] => none
  | c :: p, d :: s => if c = d then dropLit p s else none

/-- The seven field names matched by the regular expression's alternation:
(comment|like|post|tag|user|venue)Id, or bare id. -/
def fieldNames : List (List Char) :=
  [['c','o','m','m','e','n','t','I','d'],
   ['l','i','k','e','I','d'],
   ['p','o','s','t','I','d'],
   ['t','a','g','I','d'],
   ['u','s','e','r','I','d'],
   ['v','e','n','u','e','I','d'],
   ['i','d']]

/-- Try each field name in turn against the text following an opening
quote; a name matches when it is followed by a closing quote and colon. -/
def tryNames : List (List Char) → List Char → Option (List Char × List Char)
  | [], _ => none
  | n :: ns, t =>
    match dropLit (n ++ ['"', ':']) t with
    | some u => some (n, u)
    | none => tryNames ns t

/-- Head of a list satisfies a Boolean predicate. -/
def headSat (p : Char → Bool) : List Char → Bool
  | [] => false
  | c :: _ => p c

/-- Given the matched field name `n` and the text `u` following its
closing-quote-and-colon, consume the greedy whitespace group, the greedy
digit group and the optional comma group, and produce the replacement
text of VINE_ID_REPLACE (field-name group and whitespace kept, the digit
group requoted, the trailing comma preserved) together with the
unconsumed remainder. -/
def vineRepl (n u : List Char) : List Char × List Char :=
  if headSat (fun x => x == ',') ((u.dropWhile isWsChar).dropWhile isDigitCh) then
    ('"' :: n ++ ['"', ':'] ++ u.takeWhile isWsChar ++
      '"' :: (u.dropWhile isWsChar).takeWhile isDigitCh ++ ['"', ','],
      ((u.dropWhile isWsChar).dropWhile isDigitCh).tail)
  else
    ('"' :: n ++ ['"', ':'] ++ u.takeWhile isWsChar ++
      '"' :: (u.dropWhile isWsChar).takeWhile isDigitCh ++ ['"'],
      (u.dropWhile isWsChar).dropWhile isDigitCh)

/-- Attempt the regular-expression match at the head of the string.  On
success, returns the replacement text together with the unconsumed
remainder. -/
def tryMatchAt : List Char → Option (List Char × List Char)
  | [] => none
  | c :: t =>
    if c = '"' then Option.map (fun nu => vineRepl nu.1 nu.2) (tryNames fieldNames t)
    else none

/-- Fuel-driven core of the global replace: scan left to right, rewriting
each leftmost match and continuing after it, exactly as a global
JavaScript replace does.  The fuel only needs to dominate the length of
the string, since every step consumes at least one character. -/
def vineIdAux : Nat → List Char → List Char
  | _, [] => []
  | 0, s => s
  | n + 1, c :: t =>
    match tryMatchAt (c :: t) with
    | some (repl, rest) => repl ++ vineIdAux n rest
    | none => c :: vineIdAux n t

/-- body.replace(VINE_ID_SEARCH, VINE_ID_REPLACE). -/
def vineIdReplace (s : List Char) : List Char :=
  vineIdAux s.length s

/-- Whether the pattern matches anywhere in the string. -/
def containsMatch : List Char → Bool
  | [] => false
  | c :: t => (tryMatchAt (c :: t)).isSome || containsMatch t

/-- No match of the pattern starts strictly inside the prefix `p` when the
full text is `p ++ s`. -/
def noMatchWithin : List Char → List Char → Bool
  | [], _ => true
  | c :: p, s => (tryMatchAt (c :: (p ++ s))).isNone && noMatchWithin p s

theorem dropLit_self (p s : List Char) : dropLit p (p ++ s) = some s := by
  induction p with
  | nil => rfl
  | cons c t ih => simp [dropLit, ih]

theorem dropLit_length {p s u : List Char} (h : dropLit p s = some u) :
    u.length + p.length = s.length := by
  induction p generalizing s with
  | nil =>
    cases s with
    | nil => simp [dropLit] at h; simp [h]
    | cons c t => simp [dropLit] at h; simp [h]
  | cons c t ih =>
    cases s with
    | nil => simp [dropLit] at h
    | cons d r =>
      by_cases hc : c = d
      · subst hc
        simp only [dropLit, if_pos rfl] at h
        have := ih h
        simp only [List.length_cons]
        omega
      · simp [dropLit, hc] at h

theorem tryNames_length {ns : List (List Char)} {t n u : List Char}
    (h : tryNames ns t = some (n, u)) : u.length ≤ t.length := by
  induction ns with
  | nil => simp [tryNames] at h
  | cons m ms ih =>
    simp only [tryNames] at h
    cases hd : dropLit (m ++ ['"', ':']) t with
    | none => rw [hd] at h; exact ih h
    | some v =>
      rw [hd] at h
      simp only [Option.some.injEq, Prod.mk.injEq] at h
      obtain ⟨h1, h2⟩ := h
      subst h2
      have := dropLit_length hd
      omega

theorem length_dropWhile_le (p : Char → Bool) (l : List Char) :
    (l.dropWhile p).length ≤ l.length := by
  induction l with
  | nil => simp
  | cons a t ih =>
    rw [List.dropWhile_cons]
    by_cases hp : p a
    · rw [if_pos hp]; exact Nat.le_succ_of_le ih
    · rw [if_neg hp]

theorem vineRepl_rest_length (n u : List Char) :
    (vineRepl n u).2.length ≤ u.length := by
  have h1 : (u.dropWhile isWsChar).length ≤ u.length := length_dropWhile_le isWsChar u
  have h2 : ((u.dropWhile isWsChar).dropWhile isDigitCh).length ≤
      (u.dropWhile isWsChar).length := length_dropWhile_le isDigitCh _
  rw [vineRepl]
  by_cases hcm :
      headSat (fun x => x == ',') ((u.dropWhile isWsChar).dropWhile isDigitCh) = true
  · rw [if_pos hcm]
    have h3 := List.length_tail ((u.dropWhile isWsChar).dropWhile isDigitCh)
    simp only at h3 ⊢
    omega
  · rw [if_neg hcm]
    simp only
    omega

theorem tryMatchAt_length {s repl rest : List Char}
    (h : tryMatchAt s = some (repl, rest)) : rest.length < s.length := by
  cases s with
  | nil => simp [tryMatchAt] at h
  | cons c t =>
    simp only [tryMatchAt] at h
    by_cases hc : c = '"'
    · rw [if_pos hc] at h
      cases hn : tryNames fieldNames t with
      | none => rw [hn] at h; simp at h
      | some nu =>
        rw [hn] at h
        obtain ⟨n, u⟩ := nu
        have hu : u.length ≤ t.length := tryNames_length hn
        simp only [Option.map_some'] at h
        have hrest : rest = (vineRepl n u).2 := by
          have := congrArg (fun o => Option.map Prod.snd o) h
          simpa using this.symm
        subst hrest
        have := vineRepl_rest_length n u
        simp only [List.length_cons]
        omega
    · rw [if_neg hc] at h
      simp at h

theorem vineIdAux_congr : ∀ (k : Nat) {n m : Nat} (s : List Char),
    s.length ≤ k → s.length ≤ n → s.length ≤ m → vineIdAux n s = vineIdAux m s := by
  intro k
  induction k with
  | zero =>
    intro n m s hk _ _
    have hnil : s = [] := List.eq_nil_of_length_eq_zero (Nat.le_zero.mp hk)
    subst hnil
    cases n <;> cases m <;> rfl
  | succ k ih =>
    intro n m s hk hn hm
    cases s with
    | nil => cases n <;> cases m <;> rfl
    | cons c t =>
      simp only [List.length_cons] at hk hn hm
      obtain ⟨n', rfl⟩ : ∃ n', n = n' + 1 := ⟨n - 1, by omega⟩
      obtain ⟨m', rfl⟩ : ∃ m', m = m' + 1 := ⟨m - 1, by omega⟩
      cases htm : tryMatchAt (c :: t) with
      | some pr =>
        obtain ⟨repl, rest⟩ := pr
        have hlt := tryMatchAt_length htm
        simp only [List.length_cons] at hlt
        simp only [vineIdAux, htm]
        rw [@ih n' m' rest (by omega) (by omega) (by omega)]
      | none =>
        simp only [vineIdAux, htm]
        rw [@ih n' m' t (by omega) (by omega) (by omega)]

theorem vineIdReplace_match {s repl rest : List Char}
    (h : tryMatchAt s = some (repl, rest)) :
    vineIdReplace s = repl ++ vineIdReplace rest := by
  cases s with
  | nil => simp [tryMatchAt] at h
  | cons c t =>
    have hlt := tryMatchAt_length h
    simp only [List.length_cons] at hlt
    unfold vineIdReplace
    simp only [List.length_cons, vineIdAux, h]
    rw [@vineIdAux_congr t.length t.length rest.length rest (by omega) (by omega) (by omega)]

theorem vineIdReplace_nomatch_head {c : Char} {t : List Char}
    (h : tryMatchAt (c :: t) = none) :
    vineIdReplace (c :: t) = c :: vineIdReplace t := by
  unfold vineIdReplace
  simp only [List.length_cons, vineIdAux, h]

theorem vineIdReplace_of_noMatch {s : List Char} (h : containsMatch s = false) :
    vineIdReplace s = s := by
  induction s with
  | nil => rfl
  | cons c t ih =>
    simp only [containsMatch, Bool.or_eq_false_iff] at h
    obtain ⟨h1, h2⟩ := h
    have h3 : tryMatchAt (c :: t) = none := by
      cases htm : tryMatchAt (c :: t) with
      | none => rfl
      | some _ => rw [htm] at h1; simp at h1
    rw [vineIdReplace_nomatch_head h3, ih h2]

theorem vineIdReplace_append_of_noMatchWithin {p s : List Char}
    (h : noMatchWithin p s = true) :
    vineIdReplace (p ++ s) = p ++ vineIdReplace s := by
  induction p with
  | nil => simp
  | cons c t ih =>
    simp only [noMatchWithin, Bool.and_eq_true] at h
    obtain ⟨h1, h2⟩ := h
    have h3 : tryMatchAt (c :: (t ++ s)) = none := by
      cases htm : tryMatchAt (c :: (t ++ s)) with
      | none => rfl
      | some _ => rw [htm] at h1; simp at h1
    rw [List.cons_append, vineIdReplace_nomatch_head h3, ih h2]
    simp

theorem span_all_head {p : Char → Bool} :
    ∀ (w r : List Char), (∀ x ∈ w, p x = true) → headSat p r = false →
    (w ++ r).takeWhile p = w ∧ (w ++ r).dropWhile p = r := by
  intro w
  induction w with
  | nil =>
    intro r _ hr
    cases r with
    | nil => exact ⟨rfl, rfl⟩
    | cons x xs =>
      simp only [headSat] at hr
      constructor
      · simp [List.takeWhile_cons, hr]
      · simp [List.dropWhile_cons, hr]
  | cons a w' ih =>
    intro r hw hr
    have ha : p a = true := hw a (List.mem_cons_self a w')
    obtain ⟨ih1, ih2⟩ := ih r (fun x hx => hw x (List.mem_cons_of_mem a hx)) hr
    constructor
    · simp [List.takeWhile_cons, ha, ih1]
    · simp [List.dropWhile_cons, ha, ih2]

theorem digit_not_ws {c : Char} (h : isDigitCh c = true) : isWsChar c = false := by
  simp only [isDigitCh, Bool.and_eq_true, decide_eq_true_eq] at h
  simp only [isWsChar, Bool.or_eq_false_iff, beq_eq_false_iff_ne, ne_eq,
    Bool.and_eq_false_iff, decide_eq_false_iff_not, not_le]
  omega

theorem tryNames_self {name : List Char} (hmem : name ∈ fieldNames) (rest : List Char) :
    tryNames fieldNames (name ++ ['"', ':'] ++ rest) = some (name, rest) := by
  simp only [fieldNames, List.mem_cons, List.mem_singleton, List.not_mem_nil, or_false] at hmem
  rcases hmem with rfl | rfl | rfl | rfl | rfl | rfl | rfl <;> rfl

/-- The optional trailing comma group as text: present or absent. -/
def commaL (b : Bool) : List Char := if b then [','] else []

theorem commaL_true : commaL true = [','] := rfl

theorem commaL_false : commaL false = [] := rfl

theorem headSat_append_left {p : Char → Bool} {x : Char} {l r : List Char} :
    headSat p ((x :: l) ++ r) = p x := rfl

theorem tryMatchAt_pattern {name w d s : List Char} {comma : Bool}
    (hmem : name ∈ fieldNames)
    (hw : ∀ x ∈ w, isWsChar x = true)
    (hd : ∀ x ∈ d, isDigitCh x = true)
    (hs1 : comma = false → headSat isDigitCh s = false)
    (hs2 : comma = false → headSat (fun x => x == ',') s = false)
    (hs3 : d = [] → comma = false → headSat isWsChar s = false) :
    tryMatchAt ('"' :: name ++ ['"', ':'] ++ (w ++ (d ++ (commaL comma ++ s)))) =
      some ('"' :: name ++ ['"', ':'] ++ w ++ '"' :: d ++ ['"'] ++ commaL comma, s) := by
  have hws : headSat isWsChar (d ++ (commaL comma ++ s)) = false := by
    cases d with
    | cons x xs =>
      have hx : isDigitCh x = true := hd x (List.mem_cons_self x xs)
      rw [headSat_append_left]
      exact digit_not_ws hx
    | nil =>
      cases comma with
      | true => rfl
      | false =>
        simp only [commaL_false, List.nil_append]
        exact hs3 rfl rfl
  have hdg : headSat isDigitCh (commaL comma ++ s) = false := by
    cases comma with
    | true => rfl
    | false =>
      simp only [commaL_false, List.nil_append]
      exact hs1 rfl
  obtain ⟨hspan1t, hspan1d⟩ := span_all_head w (d ++ (commaL comma ++ s)) hw hws
  obtain ⟨hspan2t, hspan2d⟩ := span_all_head d (commaL comma ++ s) hd hdg
  have hstep : tryMatchAt ('"' :: name ++ ['"', ':'] ++ (w ++ (d ++ (commaL comma ++ s)))) =
      Option.map (fun nu => vineRepl nu.1 nu.2)
        (tryNames fieldNames (name ++ ['"', ':'] ++ (w ++ (d ++ (commaL comma ++ s))))) := by
    rw [show ('"' :: name ++ ['"', ':'] ++ (w ++ (d ++ (commaL comma ++ s)))) =
      '"' :: (name ++ ['"', ':'] ++ (w ++ (d ++ (commaL comma ++ s)))) from by simp]
    rfl
  rw [hstep, tryNames_self hmem, Option.map_some']
  simp only [vineRepl, hspan1t, hspan1d, hspan2t, hspan2d]
  cases comma with
  | true =>
    simp only [commaL_true, List.cons_append, List.nil_append, headSat, beq_self_eq_true,
      if_pos]
    simp [List.append_assoc]
  | false =>
    have hcf : headSat (fun x => x == ',') (commaL false ++ s) = false := by
      simp only [commaL_false, List.nil_append]
      exact hs2 rfl
    rw [if_neg (by simp [hcf])]
    simp [commaL_false]

/-- C1: for every occurrence of one of the identifier field-name patterns
followed by a bare numeric literal, the pre-parse repair rewrite replaces
the occurrence with the same field name followed by the identical digit
sequence in quotes, preserving any trailing comma, for any number of
digits (the digit group is an arbitrary digit string, so lengths past
2 to the 53 are covered); rewriting then continues on the remainder, a
prefix inside which no match starts passes through unchanged, and text
containing no match at all is left unchanged. -/
theorem c1_identifier_repair :
    (∀ (name w d s : List Char) (comma : Bool), name ∈ fieldNames →
      (∀ x ∈ w, isWsChar x = true) → (∀ x ∈ d, isDigitCh x = true) →
      (comma = false → headSat isDigitCh s = false) →
      (comma = false → headSat (fun x => x == ',') s = false) →
      (d = [] → comma = false → headSat isWsChar s = false) →
      vineIdReplace ('"' :: name ++ ['"', ':'] ++ (w ++ (d ++ (commaL comma ++ s)))) =
        '"' :: name ++ ['"', ':'] ++ w ++ '"' :: d ++ ['"'] ++ commaL comma ++ vineIdReplace s)
    ∧ (∀ p s : List Char, noMatchWithin p s = true →
        vineIdReplace (p ++ s) = p ++ vineIdReplace s)
    ∧ (∀ s : List Char, containsMatch s = false → vineIdReplace s = s) := by
  refine ⟨?_, fun p s h => vineIdReplace_append_of_noMatchWithin h,
    fun s h => vineIdReplace_of_noMatch h⟩
  intro name w d s comma hmem hw hd hs1 hs2 hs3
  have hm := tryMatchAt_pattern hmem hw hd hs1 hs2 hs3
  rw [vineIdReplace_match hm]

/-- Witness for C1: a userId field carrying a 21-digit numeric literal,
with one space and a trailing comma, is requoted verbatim. -/
theorem c1_identifier_repair_witness :
    vineIdReplace ('"' :: ['u','s','e','r','I','d'] ++ ['"', ':'] ++
      ([' '] ++ (['1','2','3','4','5','6','7','8','9','0','1','2','3','4','5','6','7','8','9','0','1']
        ++ (commaL true ++ ['x'])))) =
      "\"userId\": \"123456789012345678901\",x".toList := by
  rw [c1_identifier_repair.1 ['u','s','e','r','I','d'] [' ']
    ['1','2','3','4','5','6','7','8','9','0','1','2','3','4','5','6','7','8','9','0','1'] ['x'] true
    (by decide) (by decide) (by decide) (by decide) (by decide) (by decide)]
  decide

/-!
The JSON parser, after JSON.parse, and the response-handling continuation
of `Vineapple.prototype.request`.
-/

/-- JSON whitespace accepted between tokens by JSON.parse. -/
def jsonWs (c : Char) : Bool :=
  c == ' ' || c == '\t' || c == '\n' || c == '\r'

/-- Value of one hexadecimal digit. -/
def hexVal (c : Char) : Option Nat :=
  if 0x30 ≤ c.toNat ∧ c.toNat ≤ 0x39 then some (c.toNat - 0x30)
  else if 0x61 ≤ c.toNat ∧ c.toNat ≤ 0x66 then some (c.toNat - 0x57)
  else if 0x41 ≤ c.toNat ∧ c.toNat ≤ 0x46 then some (c.toNat - 0x37)
  else none

/-- Parse the body of a JSON string after its opening quote, decoding
escapes, up to and including the closing quote.  Returns the decoded
content and the remainder. -/
def parseStringBody : Nat → List Char → Option (List Char × List Char)
  | 0, _ => none
  | _ + 1, [] => none
  | n + 1, c :: t =>
    if c = '"' then some ([], t)
    else if c = '\\' then
      match t with
      | [] => none
      | e :: t2 =>
        if e = '"' then (parseStringBody n t2).map (fun p => ('"' :: p.1, p.2))
        else if e = '\\' then (parseStringBody n t2).map (fun p => ('\\' :: p.1, p.2))
        else if e = '/' then (parseStringBody n t2).map (fun p => ('/' :: p.1, p.2))
        else if e = 'b' then (parseStringBody n t2).map (fun p => ('\x08' :: p.1, p.2))
        else if e = 'f' then (parseStringBody n t2).map (fun p => ('\x0c' :: p.1, p.2))
        else if e = 'n' then (parseStringBody n t2).map (fun p => ('\n' :: p.1, p.2))
        else if e = 'r' then (parseStringBody n t2).map (fun p => ('\r' :: p.1, p.2))
        else if e = 't' then (parseStringBody n t2).map (fun p => ('\t' :: p.1, p.2))
        else if e = 'u' then
          match t2 with
          | h1 :: h2 :: h3 :: h4 :: t3 =>
            match hexVal h1, hexVal h2, hexVal h3, hexVal h4 with
            | some a, some b, some c2, some d =>
              (parseStringBody n t3).map
                (fun p => (Char.ofNat (((a * 16 + b) * 16 + c2) * 16 + d) :: p.1, p.2))
            | _, _, _, _ => none
          | _ => none
        else none
    else if c.toNat < 0x20 then none
    else (parseStringBody n t).map (fun p => (c :: p.1, p.2))

/-- Parse the optional exponent part of a JSON number, accumulating the
token text. -/
def parseExpPart (acc : List Char) (s : List Char) : Option (List Char × List Char) :=
  match s with
  | e :: r =>
    if e = 'e' ∨ e = 'E' then
      match (match r with
             | '+' :: rr => (['+'], rr)
             | '-' :: rr => (['-'], rr)
             | rr => (([] : List Char), rr)) with
      | (sg, r1) =>
        match r1 with
        | d :: _ =>
          if isDigitCh d then
            some (acc ++ e :: sg ++ r1.takeWhile isDigitCh, r1.dropWhile isDigitCh)
          else none
        | [] => none
    else some (acc, s)
  | [] => some (acc, s)

/-- Parse the optional fraction part of a JSON number followed by the
optional exponent part. -/
def parseFracExp (acc : List Char) (s : List Char) : Option (List Char × List Char) :=
  match s with
  | '.' :: r =>
    match r with
    | d :: _ =>
      if isDigitCh d then
        parseExpPart (acc ++ '.' :: r.takeWhile isDigitCh) (r.dropWhile isDigitCh)
      else none
    | [] => none
  | _ => parseExpPart acc s

/-- Parse a JSON number token per the JSON grammar: optional minus, an
integer part with no leading zero, optional fraction, optional exponent.
Returns the token's text and the remainder. -/
def parseNumberTok (s : List Char) : Option (List Char × List Char) :=
  match (match s with
         | '-' :: r => (['-'], r)
         | r => (([] : List Char), r)) with
  | (sgn, s1) =>
    match s1 with
    | [] => none
    | c :: r =>
      if c = '0' then parseFracExp (sgn ++ ['0']) r
      else if isDigitCh c then
        parseFracExp (sgn ++ c :: r.takeWhile isDigitCh) (r.dropWhile isDigitCh)
      else none

/-- Recursive-descent JSON parser core, after JSON.parse.  The mode
selects what is parsed: mode 0 a single element (leading whitespace
allowed), mode 1 the members of an object after its opening brace, mode 2
the elements of an array after its opening bracket; modes 1 and 2 consume
the closing delimiter and return the collected object or array.  The fuel
dominates the input length, and every nested call strictly consumes. -/
def parseCore : Nat → Nat → List Char → Option (JVal × List Char)
  | 0, _, _ => none
  | n + 1, mode, s =>
    if mode = 1 then
      match s.dropWhile jsonWs with
      | c :: t =>
        if c = '"' then
          match parseStringBody (t.length + 1) t with
          | some (key, r1) =>
            match r1.dropWhile jsonWs with
            | c2 :: r2 =>
              if c2 = ':' then
                match parseCore n 0 r2 with
                | some (v, r3) =>
                  match r3.dropWhile jsonWs with
                  | c3 :: r4 =>
                    if c3 = ',' then
                      match parseCore n 1 r4 with
                      | some (JVal.obj ms, r5) => some (JVal.obj ((key, v) :: ms), r5)
                      | _ => none
                    else if c3 = '}' then some (JVal.obj [(key, v)], r4)
                    else none
                  | [] => none
                | none => none
              else none
            | [] => none
          | none => none
        else none
      | [] => none
    else if mode = 2 then
      match parseCore n 0 s with
      | some (v, r1) =>
        match r1.dropWhile jsonWs with
        | c :: r2 =>
          if c = ',' then
            match parseCore n 2 r2 with
            | some (JVal.arr vs, r3) => some (JVal.arr (v :: vs), r3)
            | _ => none
          else if c = ']' then some (JVal.arr [v], r2)
          else none
        | [] => none
      | none => none
    else
      match s.dropWhile jsonWs with
      | c :: t =>
        if c = '"' then
          match parseStringBody (t.length + 1) t with
          | some (str, rest) => some (JVal.str str, rest)
          | none => none
        else if c = '{' then
          match t.dropWhile jsonWs with
          | c2 :: t2 =>
            if c2 = '}' then some (JVal.obj [], t2)
            else
              match parseCore n 1 t with
              | some (v, rest) => some (v, rest)
              | none => none
          | [] => none
        else if c = '[' then
          match t.dropWhile jsonWs with
          | c2 :: t2 =>
            if c2 = ']' then some (JVal.arr [], t2)
            else
              match parseCore n 2 t with
              | some (v, rest) => some (v, rest)
              | none => none
          | [] => none
        else if c = 't' then
          match dropLit ['r','u','e'] t with
          | some rest => some (JVal.bool true, rest)
          | none => none
        else if c = 'f' then
          match dropLit ['a','l','s','e'] t with
          | some rest => some (JVal.bool false, rest)
          | none => none
        else if c = 'n' then
          match dropLit ['u','l','l'] t with
          | some rest => some (JVal.null, rest)
          | none => none
        else
          match parseNumberTok (c :: t) with
          | some (tok, rest) => some (JVal.num tok, rest)
          | none => none
      | [] => none

/-- JSON.parse: parse one element and require that only whitespace
remains; any other leftover text is a parse failure. -/
def parseJson (s : List Char) : Option JVal :=
  match parseCore (s.length + 1) 0 s with
  | some (v, rest) => if rest.dropWhile jsonWs = [] then some v else none
  | none => none

/-- Failure taxonomy of the request pipeline: transport-level failure,
parse failure after repair, or an error reported by the envelope.  An
`apiError e` models `defer.reject(new Error(data.error))` with `e` the
envelope's error value, the argument handed to the Error constructor;
the constructed Error's message is the JavaScript string conversion of
`e` (see `jsStringOf`), not the value itself. -/
inductive ReqFailure : Type where
  | transportError : String → ReqFailure
  | parseError : ReqFailure
  | apiError : JVal → ReqFailure
deriving Repr

/-- Envelope unwrap step of request: a truthy error field rejects with
that error value; otherwise the promise resolves with the data field,
which may itself be absent. -/
def envelopeStep (v : JVal) : Except ReqFailure (Option JVal) :=
  match getField v ['e','r','r','o','r'] with
  | some e =>
    if truthy e then Except.error (ReqFailure.apiError e)
    else Except.ok (getField v ['d','a','t','a'])
  | none => Except.ok (getField v ['d','a','t','a'])

/-- Response-body handling of request: repair the identifiers in the raw
text, parse it as JSON, reject on a parse failure, and otherwise unwrap
the envelope. -/
def handleBody (body : List Char) : Except ReqFailure (Option JVal) :=
  match parseJson (vineIdReplace body) with
  | none => Except.error ReqFailure.parseError
  | some v => envelopeStep v

/-- The response continuation of request: a transport error rejects the
promise without touching the body; otherwise the body is repaired, parsed
and unwrapped. -/
def handleResponse (tr : Except String (List Char)) : Except ReqFailure (Option JVal) :=
  match tr with
  | Except.error e => Except.error (ReqFailure.transportError e)
  | Except.ok body => handleBody body


/-!
Session state and its transitions, from the Vineapple prototype.
-/

/-- The session fields held on the client: this.key, this.userId,
this.username.  A missing field is `none`; a falsy value assigned by the
short-circuit `settings && settings.x` is collapsed to `none` as well,
since the client only ever tests these fields for truthiness. -/
structure Session where
  key : Option JVal
  userId : Option JVal
  username : Option JVal

/-- Reading field `k` of a settings value, as in `settings &&
settings.k`: a falsy or absent settings value contributes nothing;
otherwise the field's value, which is undefined when absent or when the
settings value is not an object. -/
def settingsGet (settings : Option JVal) (k : List Char) : Option JVal :=
  match settings with
  | none => none
  | some v => if truthy v then getField v k else none

/-- Vineapple.prototype.authorize: sets the three session fields from the
settings, each independently of the others. -/
def authorize (settings : Option JVal) : Session :=
  ⟨settingsGet settings "key".toList,
   settingsGet settings "userId".toList,
   settingsGet settings "username".toList⟩

/-- The Vineapple constructor, also reachable as Vineapple.create: it
authorizes the optional settings. -/
def vineappleNew (settings : Option JVal) : Session :=
  authorize settings

/-- Terminal outcome of a login or logout call: a synchronously thrown
error, a rejected promise, or a resolved promise. -/
inductive CallOutcome : Type where
  | thrown : String → CallOutcome
  | rejected : ReqFailure → CallOutcome
  | resolved : CallOutcome
deriving Repr

/-- Whether the call failed, synchronously or asynchronously. -/
def CallOutcome.isFailure : CallOutcome → Bool
  | CallOutcome.resolved => false
  | _ => true

/-- Vineapple.prototype.login as a transition on the session state.  The
transport's behavior for the authenticate request is a parameter: either
a transport error or a raw response body.  Returns the number of
transport invocations, the session state after the attempt, and the
call's outcome.  Validation failures are thrown before the request is
built, and the session is written only inside the success continuation
`request.then(this.authorize.bind(this))`. -/
def loginModel (st : Session) (username password : String)
    (tr : Except String (List Char)) : Nat × Session × CallOutcome :=
  if username = "" then (0, st, CallOutcome.thrown "Invalid credentials. Missing username.")
  else if password = "" then (0, st, CallOutcome.thrown "Invalid credentials. Missing password.")
  else
    match handleResponse tr with
    | Except.error f => (1, st, CallOutcome.rejected f)
    | Except.ok d => (1, authorize d, CallOutcome.resolved)

/-- Vineapple.prototype.logout: a DELETE of the authenticate endpoint
followed by the same authorize continuation, applied to the response's
data field. -/
def logoutModel (st : Session) (tr : Except String (List Char)) :
    Session × CallOutcome :=
  match handleResponse tr with
  | Except.error f => (st, CallOutcome.rejected f)
  | Except.ok d => (authorize d, CallOutcome.resolved)

/-- All three session fields present together, or all absent together. -/
def sessionInvariant (s : Session) : Prop :=
  (s.key.isSome = true ∧ s.userId.isSome = true ∧ s.username.isSome = true) ∨
  (s.key.isSome = false ∧ s.userId.isSome = false ∧ s.username.isSome = false)

/-!
Header construction of request.
-/

/-- Property read on a JavaScript object with string keys. -/
def objGetKV {α : Type} : List (String × α) → String → Option α
  | [], _ => none
  | (k1, v1) :: t, k => if k1 = k then some v1 else objGetKV t k

/-- Property assignment on a JavaScript object: replace the value under
an existing key in place, or append the new key. -/
def objSetKV {α : Type} : List (String × α) → String → α → List (String × α)
  | [], k, v => [(k, v)]
  | (k1, v1) :: t, k, v => if k1 = k then (k, v) :: t else (k1, v1) :: objSetKV t k v

/-- One step of lodash defaults: each key-value pair of the source is
appended when the destination does not already carry the key. -/
def objDefaultsIntoKV {α : Type} (dst src : List (String × α)) : List (String × α) :=
  src.foldl (fun acc kv => if (objGetKV acc kv.1).isSome then acc else acc ++ [kv]) dst

/-- The literal defaults argument of the header merge, exactly as written
in the source: a single key named headers whose value is the object of
the three fixed headers X-Vine-Client, Accept-Language and User-Agent. -/
def vineDefaultHeadersJ : JVal :=
  JVal.obj
    [("X-Vine-Client".toList, JVal.str "ios/1.3.1".toList),
     ("Accept-Language".toList,
       JVal.str "en;q=1, fr;q=0.9, de;q=0.8, ja;q=0.7, nl;q=0.6, it;q=0.5".toList),
     ("User-Agent".toList, JVal.str "iphone/1.3.1 (iPhone; iOS 6.1.3; Scale/2.00)".toList)]

/-- Header construction of request: `options.headers = _.defaults({},
options.headers, { headers: { 'X-Vine-Client': ..., 'Accept-Language':
..., 'User-Agent': ... } })`, then the conditional injection
`if (this.key) options.headers['vine-session-id'] = this.key`. -/
def buildHeaders (callerHeaders : Option (List (String × JVal))) (st : Session) :
    List (String × JVal) :=
  let afterCaller :=
    match callerHeaders with
    | some hs => objDefaultsIntoKV [] hs
    | none => []
  let base := objDefaultsIntoKV afterCaller [("headers", vineDefaultHeadersJ)]
  match st.key with
  | some v => if truthy v then objSetKV base "vine-session-id" v else base
  | none => base

/-!
The callback drain of request:
  if (callback) promise.then(callback.bind(null, null)).fail(callback);
-/

/-- The callback invocations produced by `promise.then(callback.bind(null,
null)).fail(callback)`, in order.  A callback receives (error, value) and
may itself throw (modelled by returning some thrown failure).  When the
promise resolves, the first stage invokes the callback with (null,
value); if that invocation throws, the derived promise rejects with the
thrown value, so the fail stage invokes the same callback again with it.
When the promise rejects, the first stage passes the rejection through
and the fail stage invokes the callback once with the error. -/
def callbackInvocations (outcome : Except ReqFailure (Option JVal))
    (cb : Option ReqFailure → Option (Option JVal) → Option ReqFailure) :
    List (Option ReqFailure × Option (Option JVal)) :=
  match outcome with
  | Except.ok v =>
    match cb none (some v) with
    | none => [(none, some v)]
    | some e2 => [(none, some v), (some e2, none)]
  | Except.error e => [(some e, none)]

/-!
An object-store model of the descriptor-cloning discipline of request,
for the frame property: caller-owned objects are never mutated.
-/

/-- A value stored in an object field: a primitive string, or a
reference to another heap object. -/
inductive HV : Type where
  | s : String → HV
  | ref : Nat → HV
deriving Repr, DecidableEq

/-- A JavaScript object: its fields in insertion order. -/
abbrev JsObj : Type := List (String × HV)

/-- The object heap: allocated objects by address and the next fresh
address. -/
structure Heap where
  mem : Nat → JsObj
  next : Nat

/-- Allocate a fresh object, returning the new heap and its address. -/
def Heap.alloc (h : Heap) (o : JsObj) : Heap × Nat :=
  (⟨fun a => if a = h.next then o else h.mem a, h.next + 1⟩, h.next)

/-- Assign a field of the object at address a. -/
def Heap.set (h : Heap) (a : Nat) (k : String) (v : HV) : Heap :=
  ⟨fun b => if b = a then objSetKV (h.mem a) k v else h.mem b, h.next⟩

/-- The three fixed default headers as the freshly allocated object
literal of the source. -/
def vineDefaultHObj : JsObj :=
  [("X-Vine-Client", HV.s "ios/1.3.1"),
   ("Accept-Language", HV.s "en;q=1, fr;q=0.9, de;q=0.8, ja;q=0.7, nl;q=0.6, it;q=0.5"),
   ("User-Agent", HV.s "iphone/1.3.1 (iPhone; iOS 6.1.3; Scale/2.00)")]

/-- Root url of the Vine API. -/
def apiOrigin : String := "https://api.vineapp.com/"

/-- The url string of a descriptor object. -/
def urlOf (o : JsObj) : String :=
  match objGetKV o "url" with
  | some (HV.s u) => u
  | _ => ""

/-- The caller's headers object of a descriptor, resolved in the heap:
the fields of the referenced object, or the empty object when the
descriptor carries no headers (an undefined defaults source is
skipped). -/
def callerHeadersOf (h : Heap) (o : JsObj) : JsObj :=
  match objGetKV o "headers" with
  | some (HV.ref a) => h.mem a
  | _ => []

/-- The option-building phase of request on a descriptor object:
`options = _.clone(options)` shallowly clones the descriptor into a
fresh object; `options.url = Vineapple.API_ORIGIN + options.url` writes
the clone; `options.headers = _.defaults({}, options.headers, {headers:
...})` allocates the nested defaults literal and a fresh headers object
holding the caller's header fields, and writes the clone's headers
field; finally the conditional session-header assignment writes the
fresh headers object.  Returns the new heap and the address of the
options clone. -/
def buildRequestOptions (h : Heap) (descAddr : Nat) (key : Option String) : Heap × Nat :=
  let desc := h.mem descAddr
  let p1 := h.alloc desc
  let h2 := p1.1.set p1.2 "url" (HV.s (apiOrigin ++ urlOf desc))
  let p3 := h2.alloc vineDefaultHObj
  let merged := objDefaultsIntoKV (objDefaultsIntoKV [] (callerHeadersOf h desc))
    [("headers", HV.ref p3.2)]
  let p4 := p3.1.alloc merged
  let h5 := p4.1.set p1.2 "headers" (HV.ref p4.2)
  match key with
  | some k => (h5.set p4.2 "vine-session-id" (HV.s k), p1.2)
  | none => (h5, p1.2)

/-- Address of the headers object of the options at address oA. -/
def headersAddrOf (h : Heap) (oA : Nat) : Option Nat :=
  match objGetKV (h.mem oA) "headers" with
  | some (HV.ref a) => some a
  | _ => none

theorem objGetKV_objSetKV {α : Type} (o : List (String × α)) (k : String) (v : α) :
    objGetKV (objSetKV o k v) k = some v := by
  induction o with
  | nil => simp [objSetKV, objGetKV]
  | cons kv t ih =>
    obtain ⟨k1, v1⟩ := kv
    by_cases hk : k1 = k
    · subst hk
      simp [objSetKV, objGetKV]
    · simp [objSetKV, objGetKV, hk, ih]

theorem buildRequestOptions_frame (h : Heap) (dA : Nat) (key : Option String) :
    ∀ a, a < h.next → ((buildRequestOptions h dA key).1).mem a = h.mem a := by
  intro a ha
  cases key with
  | none =>
    simp only [buildRequestOptions, Heap.alloc, Heap.set]
    repeat rw [if_neg (by omega)]
  | some k =>
    simp only [buildRequestOptions, Heap.alloc, Heap.set]
    repeat rw [if_neg (by omega)]

theorem buildRequestOptions_next (h : Heap) (dA : Nat) (key : Option String) :
    ((buildRequestOptions h dA key).1).next = h.next + 3 := by
  cases key <;> simp [buildRequestOptions, Heap.alloc, Heap.set]

theorem buildRequestOptions_addr (h : Heap) (dA : Nat) (key : Option String) :
    (buildRequestOptions h dA key).2 = h.next := by
  cases key <;> simp [buildRequestOptions, Heap.alloc, Heap.set]

theorem buildRequestOptions_headersAddr (h : Heap) (dA : Nat) (key : Option String) :
    headersAddrOf (buildRequestOptions h dA key).1 (buildRequestOptions h dA key).2 =
      some (h.next + 2) := by
  cases key with
  | none =>
    simp [headersAddrOf, buildRequestOptions, Heap.alloc, Heap.set, objGetKV_objSetKV]
  | some k =>
    simp [headersAddrOf, buildRequestOptions, Heap.alloc, Heap.set, objGetKV_objSetKV,
      Nat.add_assoc]

theorem headersAddrOf_congr {h h' : Heap} {a : Nat} (hm : h'.mem a = h.mem a) :
    headersAddrOf h' a = headersAddrOf h a := by
  unfold headersAddrOf
  rw [hm]

/-- C9: the caller's descriptor and its headers object are never mutated
by the option-building phase of request: every object allocated before
the call reads back unchanged after two dispatches; each dispatch builds
its own fresh headers object (at a fresh address, distinct between the
two dispatches), and mutating either request's headers object after
dispatch leaves the other request's headers object untouched. -/
theorem c9_descriptor_not_mutated (h : Heap) (dA dB : Nat) (kA kB : Option String)
    (hdA : dA < h.next) (hdB : dB < h.next) :
    (∀ a, a < h.next →
      ((buildRequestOptions (buildRequestOptions h dA kA).1 dB kB).1).mem a = h.mem a) ∧
    headersAddrOf (buildRequestOptions (buildRequestOptions h dA kA).1 dB kB).1
        (buildRequestOptions h dA kA).2 = some (h.next + 2) ∧
    headersAddrOf (buildRequestOptions (buildRequestOptions h dA kA).1 dB kB).1
        (buildRequestOptions (buildRequestOptions h dA kA).1 dB kB).2 = some (h.next + 5) ∧
    (∀ k v,
      (((buildRequestOptions (buildRequestOptions h dA kA).1 dB kB).1).set (h.next + 2) k v).mem
          (h.next + 5) =
        ((buildRequestOptions (buildRequestOptions h dA kA).1 dB kB).1).mem (h.next + 5)) ∧
    (∀ k v,
      (((buildRequestOptions (buildRequestOptions h dA kA).1 dB kB).1).set (h.next + 5) k v).mem
          (h.next + 2) =
        ((buildRequestOptions (buildRequestOptions h dA kA).1 dB kB).1).mem (h.next + 2)) := by
  refine ⟨?_, ?_, ?_, ?_, ?_⟩
  · intro a ha
    have hn1 : a < ((buildRequestOptions h dA kA).1).next := by
      rw [buildRequestOptions_next]
      omega
    rw [buildRequestOptions_frame ((buildRequestOptions h dA kA).1) dB kB a hn1,
      buildRequestOptions_frame h dA kA a ha]
  · have ho1 : (buildRequestOptions h dA kA).2 < ((buildRequestOptions h dA kA).1).next := by
      rw [buildRequestOptions_next, buildRequestOptions_addr]
      omega
    rw [headersAddrOf_congr
      (buildRequestOptions_frame ((buildRequestOptions h dA kA).1) dB kB
        ((buildRequestOptions h dA kA).2) ho1)]
    exact buildRequestOptions_headersAddr h dA kA
  · have h2a := buildRequestOptions_headersAddr ((buildRequestOptions h dA kA).1) dB kB
    rw [buildRequestOptions_next] at h2a
    simpa [Nat.add_assoc] using h2a
  · intro k v
    simp only [Heap.set]
    rw [if_neg (by omega)]
  · intro k v
    simp only [Heap.set]
    rw [if_neg (by omega)]

/-- A two-object caller heap: a descriptor at address 0 whose headers
object sits at address 1. -/
def c9WitnessHeap : Heap :=
  ⟨fun a =>
    if a = 0 then [("url", HV.s "users/me"), ("headers", HV.ref 1)]
    else if a = 1 then [("X-Custom", HV.s "1")]
    else [], 2⟩

/-- Witness for C9 at a concrete heap: after two dispatches of the same
descriptor, the descriptor still reads back unchanged and the two
requests hold distinct fresh headers objects. -/
theorem c9_descriptor_not_mutated_witness :
    ((buildRequestOptions (buildRequestOptions c9WitnessHeap 0 none).1 0 (some "sess")).1).mem 0 =
      c9WitnessHeap.mem 0 ∧
    headersAddrOf (buildRequestOptions (buildRequestOptions c9WitnessHeap 0 none).1 0
        (some "sess")).1 (buildRequestOptions c9WitnessHeap 0 none).2 =
      some (c9WitnessHeap.next + 2) ∧
    headersAddrOf (buildRequestOptions (buildRequestOptions c9WitnessHeap 0 none).1 0
        (some "sess")).1
      (buildRequestOptions (buildRequestOptions c9WitnessHeap 0 none).1 0 (some "sess")).2 =
      some (c9WitnessHeap.next + 5) := by
  have H := c9_descriptor_not_mutated c9WitnessHeap 0 0 none (some "sess") (by decide) (by decide)
  exact ⟨H.1 0 (by decide), H.2.1, H.2.2.1⟩

/-!
Claim theorems for the remaining claims.
-/

/-- C2 (code bug evaluation): with no caller header overrides, the
headers dispatched by request carry none of the three fixed defaults at
the top level — they sit nested under a spurious key named headers,
because the defaults argument wraps them in one extra object; the
session header is injected exactly when a truthy key is held, and a
caller-supplied header survives the merge. -/
theorem c2_default_headers_nested :
    objGetKV (buildHeaders none ⟨none, none, none⟩) "X-Vine-Client" = none ∧
    objGetKV (buildHeaders none ⟨none, none, none⟩) "Accept-Language" = none ∧
    objGetKV (buildHeaders none ⟨none, none, none⟩) "User-Agent" = none ∧
    objGetKV (buildHeaders none ⟨none, none, none⟩) "headers" = some vineDefaultHeadersJ ∧
    objGetKV (buildHeaders none ⟨none, none, none⟩) "vine-session-id" = none ∧
    objGetKV (buildHeaders none ⟨some (JVal.str "sess".toList), none, none⟩) "vine-session-id" =
      some (JVal.str "sess".toList) ∧
    objGetKV (buildHeaders (some [("Accept-Language", JVal.str "fr".toList)])
      ⟨none, none, none⟩) "Accept-Language" = some (JVal.str "fr".toList) :=
  ⟨rfl, rfl, rfl, rfl, rfl, rfl, rfl⟩

/-- The message carried by `new Error(x)`: the JavaScript string
conversion of x.  A string converts to itself, null and the booleans to
their names, and every plain object to the text [object Object],
whatever its contents.  Conversion of numbers — and of arrays, whose
join converts their elements recursively — goes through binary
floating-point formatting, which is outside this embedding, so those are
left unmodelled. -/
def jsStringOf : JVal → Option (List Char)
  | JVal.null => some "null".toList
  | JVal.bool true => some "true".toList
  | JVal.bool false => some "false".toList
  | JVal.str s => some s
  | JVal.obj _ => some "[object Object]".toList
  | JVal.num _ => none
  | JVal.arr _ => none

/-- C3 counterexample: a structured error value is not carried verbatim.
The code does reject (an object is truthy), but it rejects with
`new Error(data.error)`, whose message is the string conversion
[object Object] — the same for two observably distinct structured
errors, so the error value cannot be recovered from the rejection. -/
theorem c3_counterexample :
    envelopeStep (JVal.obj [(['e','r','r','o','r'],
        JVal.obj [(['c','o','d','e'], JVal.str ['4','2','0'])])]) =
      Except.error (ReqFailure.apiError
        (JVal.obj [(['c','o','d','e'], JVal.str ['4','2','0'])])) ∧
    jsStringOf (JVal.obj [(['c','o','d','e'], JVal.str ['4','2','0'])]) =
      some "[object Object]".toList ∧
    jsStringOf (JVal.obj [(['c','o','d','e'], JVal.str ['5','0','3'])]) =
      some "[object Object]".toList ∧
    JVal.obj [(['c','o','d','e'], JVal.str ['4','2','0'])] ≠
      JVal.obj [(['c','o','d','e'], JVal.str ['5','0','3'])] := by
  refine ⟨rfl, rfl, rfl, ?_⟩
  intro h
  have h2 := congrArg
    (fun v => match getField v ['c','o','d','e'] with
              | some (JVal.str s) => s
              | _ => []) h
  exact absurd h2 (by decide)

/-- C3 amended: for every successfully parsed response envelope and
every error value — string, structured or falsy — a present truthy
error field rejects the promise with an ApiError built from that value
(non-empty is exactly truthy for the wire contract's string errors,
which the Error message carries verbatim; a structured error is
stringified, as the counterexample shows); a present falsy error field
(the empty string, null, false, numeric zero) or an absent error field
resolves the promise with the envelope's data field, including when
data is absent, which is not treated as an error. -/
theorem c3_envelope_unwrap (v : JVal) :
    (∀ e, getField v ['e','r','r','o','r'] = some e → truthy e = true →
      envelopeStep v = Except.error (ReqFailure.apiError e)) ∧
    (∀ e, getField v ['e','r','r','o','r'] = some e → truthy e = false →
      envelopeStep v = Except.ok (getField v ['d','a','t','a'])) ∧
    (getField v ['e','r','r','o','r'] = none →
      envelopeStep v = Except.ok (getField v ['d','a','t','a'])) ∧
    (∀ s : List Char, truthy (JVal.str s) = !s.isEmpty) ∧
    (∀ s : List Char, jsStringOf (JVal.str s) = some s) := by
  refine ⟨?_, ?_, ?_, fun s => rfl, fun s => rfl⟩
  · intro e he ht
    unfold envelopeStep
    rw [he]
    simp [ht]
  · intro e he ht
    unfold envelopeStep
    rw [he]
    simp [ht]
  · intro h
    unfold envelopeStep
    rw [h]

/-- Witness for C3: a non-empty string error rejects with it carried
verbatim; an empty-string error and an absent error both resolve with
the data field. -/
theorem c3_envelope_unwrap_witness :
    envelopeStep (JVal.obj [(['e','r','r','o','r'], JVal.str ['b','a','d'])]) =
      Except.error (ReqFailure.apiError (JVal.str ['b','a','d'])) ∧
    envelopeStep (JVal.obj [(['e','r','r','o','r'], JVal.str []),
        (['d','a','t','a'], JVal.num ['1'])]) =
      Except.ok (some (JVal.num ['1'])) ∧
    envelopeStep (JVal.obj [(['d','a','t','a'], JVal.num ['2'])]) =
      Except.ok (some (JVal.num ['2'])) := by
  refine ⟨?_, ?_, ?_⟩
  · exact (c3_envelope_unwrap
      (JVal.obj [(['e','r','r','o','r'], JVal.str ['b','a','d'])])).1
      (JVal.str ['b','a','d']) rfl rfl
  · exact ((c3_envelope_unwrap
      (JVal.obj [(['e','r','r','o','r'], JVal.str []),
        (['d','a','t','a'], JVal.num ['1'])])).2.1
      (JVal.str []) rfl rfl).trans (by rfl)
  · exact ((c3_envelope_unwrap
      (JVal.obj [(['d','a','t','a'], JVal.num ['2'])])).2.2.1 rfl).trans (by rfl)

/-- C4: every failing login attempt — thrown synchronously at validation
or rejected by the authenticate request — leaves the session state
exactly as it was before the attempt. -/
theorem c4_login_failure_preserves_session (st : Session) (u p : String)
    (tr : Except String (List Char))
    (h : ((loginModel st u p tr).2.2).isFailure = true) :
    (loginModel st u p tr).2.1 = st := by
  unfold loginModel at h ⊢
  by_cases hu : u = ""
  · simp [hu]
  · by_cases hp : p = ""
    · simp [hu, hp]
    · simp only [if_neg hu, if_neg hp] at h ⊢
      cases htr : handleResponse tr with
      | error f => simp [htr]
      | ok d =>
        rw [htr] at h
        simp [CallOutcome.isFailure] at h

/-- Witness for C4: a login from an authenticated state whose transport
fails leaves that state in place. -/
theorem c4_login_failure_preserves_session_witness :
    (loginModel ⟨some (JVal.str ['k']), some (JVal.str ['u']), some (JVal.str ['n'])⟩
        "u" "p" (Except.error "boom")).2.1 =
      ⟨some (JVal.str ['k']), some (JVal.str ['u']), some (JVal.str ['n'])⟩ :=
  c4_login_failure_preserves_session
    ⟨some (JVal.str ['k']), some (JVal.str ['u']), some (JVal.str ['n'])⟩
    "u" "p" (Except.error "boom") (by rfl)

/-- C5 counterexample: a logout whose DELETE succeeds with a response
payload that itself carries a key field does not clear the session —
the authorize continuation adopts the payload.  (The body avoids the
identifier field names so the repair rewrite leaves it parseable.) -/
theorem c5_counterexample :
    (logoutModel ⟨none, none, none⟩
        (Except.ok "\x7b\"data\":\x7b\"key\":\"evil\"\x7d\x7d".toList)).2 =
      CallOutcome.resolved ∧
    (logoutModel ⟨none, none, none⟩
        (Except.ok "\x7b\"data\":\x7b\"key\":\"evil\"\x7d\x7d".toList)).1.key =
      some (JVal.str "evil".toList) :=
  ⟨rfl, rfl⟩

/-- C5 amended: on a successful DELETE, logout applies the authorize
transition to the response's data field (not to empty settings); the
three fields are all cleared exactly when that payload contributes none
of them — in particular for an absent, null or non-object data field, as
in the typical empty logout response. -/
theorem c5_logout_amended (st : Session) (tr : Except String (List Char)) (d : Option JVal)
    (h : handleResponse tr = Except.ok d) :
    (logoutModel st tr).1 = authorize d ∧
    (settingsGet d "key".toList = none → settingsGet d "userId".toList = none →
      settingsGet d "username".toList = none →
      (logoutModel st tr).1 = ⟨none, none, none⟩) := by
  constructor
  · unfold logoutModel
    rw [h]
  · intro h1 h2 h3
    unfold logoutModel
    rw [h]
    simp only [authorize, Session.mk.injEq]
    exact ⟨h1, h2, h3⟩

/-- Witness for C5 amended: a logout answered by a null data field clears
all three session fields of an authenticated client. -/
theorem c5_logout_amended_witness :
    (logoutModel ⟨some (JVal.str ['k']), some (JVal.str ['u']), some (JVal.str ['n'])⟩
        (Except.ok "\x7b\"data\":null\x7d".toList)).1 = ⟨none, none, none⟩ :=
  (c5_logout_amended ⟨some (JVal.str ['k']), some (JVal.str ['u']), some (JVal.str ['n'])⟩
    (Except.ok "\x7b\"data\":null\x7d".toList) (some JVal.null) (by rfl)).2 rfl rfl rfl

/-- C6 counterexample: authorize applied to partial settings — a key with
no userId or username — yields a state holding a credential without a
matching user identity, violating the all-or-none invariant; the same
state is reachable through the constructor, and through a successful
login whose authenticate payload carries only a key. -/
theorem c6_counterexample :
    ¬ sessionInvariant (authorize (some (JVal.obj [("key".toList, JVal.str "k".toList)]))) ∧
    ¬ sessionInvariant (vineappleNew (some (JVal.obj [("key".toList, JVal.str "k".toList)]))) ∧
    ¬ sessionInvariant (loginModel ⟨none, none, none⟩ "u" "p"
        (Except.ok "\x7b\"data\":\x7b\"key\":\"evil\"\x7d\x7d".toList)).2.1 := by
  refine ⟨?_, ?_, ?_⟩ <;> · intro hinv
                            rcases hinv with ⟨h1, h2, h3⟩ | ⟨h1, h2, h3⟩
                            · exact absurd h2 (by decide)
                            · exact absurd h1 (by decide)

/-- C6 amended: the all-or-none invariant is preserved by construction
and by authorize (hence by the login and logout continuations) whenever
the settings value supplies the three fields with equal presence — all
three or none, as with absent settings, the empty logout payload, and
complete authenticate payloads.  authorize copies the fields
independently and does not itself enforce the invariant for partial
settings. -/
theorem c6_invariant_amended (settings : Option JVal)
    (h : (settingsGet settings "key".toList).isSome =
        (settingsGet settings "userId".toList).isSome ∧
      (settingsGet settings "userId".toList).isSome =
        (settingsGet settings "username".toList).isSome) :
    sessionInvariant (authorize settings) ∧ sessionInvariant (vineappleNew settings) := by
  obtain ⟨h1, h2⟩ := h
  have hgoal : sessionInvariant (authorize settings) := by
    have ek : (authorize settings).key = settingsGet settings "key".toList := rfl
    have eu : (authorize settings).userId = settingsGet settings "userId".toList := rfl
    have en : (authorize settings).username = settingsGet settings "username".toList := rfl
    by_cases hb : (settingsGet settings "key".toList).isSome = true
    · left
      exact ⟨by rw [ek]; exact hb, by rw [eu, ← h1]; exact hb,
        by rw [en, ← h2, ← h1]; exact hb⟩
    · have hb' : (settingsGet settings "key".toList).isSome = false :=
        Bool.eq_false_iff.mpr hb
      right
      exact ⟨by rw [ek]; exact hb', by rw [eu, ← h1]; exact hb',
        by rw [en, ← h2, ← h1]; exact hb'⟩
  exact ⟨hgoal, hgoal⟩

/-- Witness for C6 amended: building a client with no settings lands in
the all-absent state, satisfying the invariant. -/
theorem c6_invariant_amended_witness :
    sessionInvariant (authorize none) ∧ sessionInvariant (vineappleNew none) :=
  c6_invariant_amended none ⟨rfl, rfl⟩

/-- C7: login with a missing username or password throws synchronously,
before any transport call: the username is checked first, the two
messages distinguish the missing field, the transport records zero
invocations, and the session state is untouched. -/
theorem c7_login_validation (st : Session) (u p : String)
    (tr : Except String (List Char)) :
    loginModel st "" p tr =
      (0, st, CallOutcome.thrown "Invalid credentials. Missing username.") ∧
    (u ≠ "" → loginModel st u "" tr =
      (0, st, CallOutcome.thrown "Invalid credentials. Missing password.")) := by
  constructor
  · rfl
  · intro hu
    unfold loginModel
    rw [if_neg hu, if_pos rfl]

/-- Witness for C7: the two synchronous validation failures at concrete
arguments, with zero transport invocations. -/
theorem c7_login_validation_witness :
    loginModel ⟨none, none, none⟩ "" "pw" (Except.error "unused") =
      (0, ⟨none, none, none⟩, CallOutcome.thrown "Invalid credentials. Missing username.") ∧
    loginModel ⟨none, none, none⟩ "user" "" (Except.error "unused") =
      (0, ⟨none, none, none⟩, CallOutcome.thrown "Invalid credentials. Missing password.") :=
  ⟨(c7_login_validation ⟨none, none, none⟩ "user" "pw" (Except.error "unused")).1,
   (c7_login_validation ⟨none, none, none⟩ "user" "pw" (Except.error "unused")).2 (by decide)⟩

/-- C8 counterexample: a callback that itself throws when invoked on the
success path is invoked a second time, by the failure stage, with its
thrown value — the then-then-fail chaining does not give every callback a
single invocation. -/
theorem c8_counterexample :
    (callbackInvocations (Except.ok (some JVal.null))
      (fun _ _ => some ReqFailure.parseError)).length = 2 := rfl

/-- C8 amended: provided the callback does not itself throw, it is
invoked exactly once and observes the promise's terminal outcome — with
(null, value) on resolution and with the error on rejection; a callback
that throws during the success invocation is invoked a second time with
its own thrown error. -/
theorem c8_callback_amended (outcome : Except ReqFailure (Option JVal))
    (cb : Option ReqFailure → Option (Option JVal) → Option ReqFailure)
    (hnt : ∀ e v, cb e v = none) :
    callbackInvocations outcome cb =
      [match outcome with
       | Except.ok v => (none, some v)
       | Except.error e => (some e, none)] := by
  cases outcome with
  | ok v => simp [callbackInvocations, hnt]
  | error e => rfl

/-- Witness for C8 amended: a non-throwing callback on a rejected promise
is invoked once with the error. -/
theorem c8_callback_amended_witness :
    callbackInvocations (Except.error ReqFailure.parseError) (fun _ _ => none) =
      [(some ReqFailure.parseError, none)] :=
  (c8_callback_amended (Except.error ReqFailure.parseError) (fun _ _ => none)
    (fun _ _ => rfl)).trans rfl

/-- C10: the body with a null-valued userId field is valid JSON before
repair, but the rewrite matches with an empty digit group and inserts an
empty quoted string before the original value, making the text
unparseable, so request rejects with a ParseError instead of
resolving. -/
theorem c10_empty_digit_match_breaks_valid_json :
    (parseJson "\x7b\"data\":\x7b\"userId\": null\x7d\x7d".toList).isSome = true ∧
    vineIdReplace "\x7b\"data\":\x7b\"userId\": null\x7d\x7d".toList =
      "\x7b\"data\":\x7b\"userId\": \"\"null\x7d\x7d".toList ∧
    parseJson (vineIdReplace "\x7b\"data\":\x7b\"userId\": null\x7d\x7d".toList) = none ∧
    handleResponse (Except.ok "\x7b\"data\":\x7b\"userId\": null\x7d\x7d".toList) =
      Except.error ReqFailure.parseError :=
  ⟨rfl, by decide, rfl, rfl⟩
